import Mathlib

/-!
Verification of `main.py` (dynamodb-data-loader).

A shallow embedding of the bulk DynamoDB templated item loader.  The whole
program is the single file `src/main.py`:

* `_get_args`       — argparse configuration (`--file`, `--table`, `--number`,
                      `--commit` with `type=bool`, `default=False`);
* `_get_future_timestamp_seconds` — `int((datetime.now(timezone.utc) +
                      timedelta(minutes=minutes)).timestamp())`;
* `main`            — prints a banner, opens the template file, enters
                      `with table.batch_writer() as batch:` and for
                      `i in range(1, int(args.number) + 1)` renders
                      `json.loads(template.substitute({...}))`, either
                      printing the item (dry run) or calling
                      `batch.put_item(Item=item)`, then prints `Done.`.

The embedding models Python's `string.Template.substitute` scanner, a
`json.loads` recogniser (restricted to integer numerals: the repository's
placeholder values are integers and strings; floats, `NaN`/`Infinity`,
leading-zero rejection and raw-control-character rejection are not modelled),
`int(...)` on strings (surrounding whitespace and digit-group underscores not
modelled), and `bool(...)` on strings (true exactly on non-empty input).

Effects are made explicit: console output is a list of structured `OutLine`
values (one per `print`), and the interaction with the boto3 batch writer is
a list of `Event`s (`openBatch`/`render`/`put`/`closeBatch`).  Python's
`with` statement guarantees that `__exit__` (the batch flush/close) runs on
both the normal and the exceptional exit path, which the embedding reflects
by always appending `closeBatch`.  An uncaught exception terminates CPython
with exit status 1; `exitStatus` reflects this.
-/

set_option maxRecDepth 20000

/-- JSON values as produced by `json.loads`: `None`, `bool`, `int`, `str`,
`list`, `dict` (members kept in textual order). -/
inductive Json where
  | null : Json
  | bool (b : Bool) : Json
  | num (n : Int) : Json
  | str (s : String) : Json
  | arr (elems : List Json) : Json
  | obj (members : List (String × Json)) : Json

/-- JSON insignificant whitespace. -/
def isJsonWs (c : Char) : Bool :=
  c = ' ' || c = '\t' || c = '\n' || c = '\r'

/-- Skip insignificant whitespace. -/
def skipWs : List Char → List Char
  | [] => []
  | c :: cs => if isJsonWs c then skipWs cs else c :: cs

/-- Value of a hexadecimal digit. -/
def hexDigit (c : Char) : Option Nat :=
  if '0' ≤ c ∧ c ≤ '9' then some (c.toNat - 48)
  else if 'a' ≤ c ∧ c ≤ 'f' then some (c.toNat - 87)
  else if 'A' ≤ c ∧ c ≤ 'F' then some (c.toNat - 55)
  else none

/-- Single-character JSON escapes. -/
def escChar (c : Char) : Option Char :=
  if c = '"' then some '"'
  else if c = '\\' then some '\\'
  else if c = '/' then some '/'
  else if c = 'b' then some (Char.ofNat 8)
  else if c = 'f' then some (Char.ofNat 12)
  else if c = 'n' then some '\n'
  else if c = 'r' then some '\r'
  else if c = 't' then some '\t'
  else none

/-- Body of a JSON string literal (the opening quote already consumed).
`\uXXXX` escapes are decoded without surrogate pairing. -/
def parseStrLit (acc : List Char) : List Char → Option (String × List Char)
  | [] => none
  | '"' :: rest => some (String.mk acc.reverse, rest)
  | '\\' :: 'u' :: a :: b :: c :: d :: rest =>
    match hexDigit a, hexDigit b, hexDigit c, hexDigit d with
    | some ha, some hb, some hc, some hd =>
      parseStrLit (Char.ofNat (((ha * 16 + hb) * 16 + hc) * 16 + hd) :: acc) rest
    | _, _, _, _ => none
  | '\\' :: e :: rest =>
    match escChar e with
    | some ch => parseStrLit (ch :: acc) rest
    | none => none
  | ch :: rest => parseStrLit (ch :: acc) rest

/-- Numeric value of a digit string. -/
def natOfDigits (ds : List Char) : Nat :=
  ds.foldl (fun a c => 10 * a + (c.toNat - 48)) 0

/-- A nonempty run of decimal digits. -/
def parseDigits (cs : List Char) : Option (Nat × List Char) :=
  let ds := cs.takeWhile Char.isDigit
  if ds.isEmpty then none else some (natOfDigits ds, cs.dropWhile Char.isDigit)

/-- An optionally negated integer numeral. -/
def parseNum : List Char → Option (Int × List Char)
  | '-' :: rest => (parseDigits rest).map (fun p => (-(p.1 : Int), p.2))
  | cs => (parseDigits cs).map (fun p => ((p.1 : Int), p.2))

mutual

/-- One JSON value (fuelled recursion; the fuel supplied by `json_loads`
is ample for any input it is invoked on). -/
def parseVal : Nat → List Char → Option (Json × List Char)
  | 0, _ => none
  | fuel + 1, cs =>
    match skipWs cs with
    | 'n' :: 'u' :: 'l' :: 'l' :: rest => some (.null, rest)
    | 't' :: 'r' :: 'u' :: 'e' :: rest => some (.bool true, rest)
    | 'f' :: 'a' :: 'l' :: 's' :: 'e' :: rest => some (.bool false, rest)
    | '"' :: rest => (parseStrLit [] rest).map (fun p => (.str p.1, p.2))
    | '[' :: rest =>
      match skipWs rest with
      | ']' :: r2 => some (.arr [], r2)
      | r2 => (parseElems fuel r2).map (fun p => (.arr p.1, p.2))
    | '{' :: rest =>
      match skipWs rest with
      | '}' :: r2 => some (.obj [], r2)
      | r2 => (parseMembers fuel r2).map (fun p => (.obj p.1, p.2))
    | rest => (parseNum rest).map (fun p => (.num p.1, p.2))

/-- Comma-separated array elements up to the closing bracket. -/
def parseElems : Nat → List Char → Option (List Json × List Char)
  | 0, _ => none
  | fuel + 1, cs => do
    let (v, r) ← parseVal fuel cs
    match skipWs r with
    | ',' :: r2 =>
      let (vs, r3) ← parseElems fuel r2
      some (v :: vs, r3)
    | ']' :: r2 => some ([v], r2)
    | _ => none

/-- Comma-separated object members up to the closing brace. -/
def parseMembers : Nat → List Char → Option (List (String × Json) × List Char)
  | 0, _ => none
  | fuel + 1, cs =>
    match skipWs cs with
    | '"' :: rest => do
      let (k, r) ← parseStrLit [] rest
      match skipWs r with
      | ':' :: r2 => do
        let (v, r3) ← parseVal fuel r2
        match skipWs r3 with
        | ',' :: r4 =>
          let (ms, r5) ← parseMembers fuel r4
          some ((k, v) :: ms, r5)
        | '}' :: r4 => some ([(k, v)], r4)
        | _ => none
      | _ => none
    | _ => none

end

/-- `json.loads`: parse one JSON document, demanding that only whitespace
remains. -/
def json_loads (s : String) : Option Json :=
  match parseVal (s.length + 1) s.toList with
  | some (j, rest) => if (skipWs rest).isEmpty then some j else none
  | none => none

/-- First character of a `string.Template` identifier
(pattern `(?a:[_a-zA-Z][_a-zA-Z0-9]*)`). -/
def isIdStart (c : Char) : Bool :=
  c.isAlpha || c = '_'

/-- Subsequent characters of a `string.Template` identifier. -/
def isIdChar (c : Char) : Bool :=
  c.isAlphanum || c = '_'

/-- The exceptions the script can die of:  `KeyError` (unknown placeholder),
`ValueError` (invalid `$` placeholder, and `int(...)` on a non-numeral),
`json.JSONDecodeError` (a `ValueError` subclass), and boto3's `ClientError`
from the batch writer. -/
inductive PyError where
  | keyError (name : String) : PyError
  | valueError : PyError
  | jsonDecodeError : PyError
  | clientError : PyError

/-- One regex match of `string.Template`'s pattern
`\$(?:(?P<escaped>\$)|(?P<named>ID)|{(?P<braced>ID)}|(?P<invalid>))`
(`ID` the identifier pattern) applied by `re.sub`: a literal character
between matches, an escaped `$$`, a `$name`/`${name}` placeholder, or an
invalid `$` (the empty `invalid` group, consuming just the `$`). -/
inductive Tok where
  | lit (c : Char) : Tok
  | esc : Tok
  | var (name : String) : Tok
  | invalid : Tok
deriving DecidableEq

/-- The regex scan of the template text: the token stream `re.sub` feeds,
match by match, to `Template.substitute`'s `convert` callback.  Tokenisation
is independent of the mapping.  The fuel (one unit per token, each token
consuming at least one character) is always supplied as `length + 1`, which
can never run out. -/
def scanTemplate : Nat → List Char → List Tok
  | 0, _ => []
  | fuel + 1, cs =>
    match cs with
    | [] => []
    | '$' :: rest =>
      match rest with
      | [] => [.invalid]
      | '$' :: rest2 => .esc :: scanTemplate fuel rest2
      | '{' :: rest2 =>
        match rest2 with
        | [] => .invalid :: scanTemplate fuel rest
        | c :: cs2 =>
          if isIdStart c then
            match cs2.dropWhile isIdChar with
            | '}' :: rest4 =>
              .var (String.mk (c :: cs2.takeWhile isIdChar)) :: scanTemplate fuel rest4
            | _ => .invalid :: scanTemplate fuel rest
          else .invalid :: scanTemplate fuel rest
      | c :: cs2 =>
        if isIdStart c then
          .var (String.mk (c :: cs2.takeWhile isIdChar)) ::
            scanTemplate fuel (cs2.dropWhile isIdChar)
        else .invalid :: scanTemplate fuel rest
    | c :: cs2 => .lit c :: scanTemplate fuel cs2

/-- `Template.substitute`'s `convert` callback applied to the matches left to
right, as `re.sub` does: an unknown placeholder name raises
`KeyError(name)`, an invalid `$` raises `ValueError`, and the first
exception in match order propagates. -/
def substToks (m : String → Option String) : List Tok → Except PyError (List Char)
  | [] => .ok []
  | .lit c :: ts => (substToks m ts).map (fun r => c :: r)
  | .esc :: ts => (substToks m ts).map (fun r => '$' :: r)
  | .var name :: ts =>
    match m name with
    | some v => (substToks m ts).map (fun r => v.toList ++ r)
    | none => .error (.keyError name)
  | .invalid :: _ => .error .valueError

/-- `template.substitute(mapping)` as used in `main`. -/
def substitute (tmpl : String) (m : String → Option String) : Except PyError String :=
  (substToks m (scanTemplate (tmpl.length + 1) tmpl.toList)).map String.mk

/-- The name carried by a placeholder token. -/
def tokVar? : Tok → Option String
  | .var n => some n
  | _ => none

/-- The placeholder names the template references, in order of occurrence:
the names `substitute` looks up in its mapping. -/
def templateVars (tmpl : String) : List String :=
  (scanTemplate (tmpl.length + 1) tmpl.toList).filterMap tokVar?

/-- Whether every `$` in the template is a well-formed escape or placeholder
(no match of the `invalid` group). -/
def templateScanOk (tmpl : String) : Bool :=
  Tok.invalid ∉ scanTemplate (tmpl.length + 1) tmpl.toList


/-- Value of a nonempty all-digit string, `none` otherwise. -/
def digitsToNat (cs : List Char) : Option Nat :=
  if cs ≠ [] ∧ cs.all Char.isDigit then some (natOfDigits cs) else none

/-- Python `int(s)` on the `--number` string: an optional sign followed by
digits (Python additionally strips surrounding whitespace and allows digit
group underscores, which no claim depends on); failure raises `ValueError`. -/
def pyInt (s : String) : Option Int :=
  match s.toList with
  | '-' :: rest => (digitsToNat rest).map (fun m => -(m : Int))
  | '+' :: rest => (digitsToNat rest).map (fun m => (m : Int))
  | l => (digitsToNat l).map (fun m => (m : Int))

/-- The parsed `--commit` flag: argparse with `required=False, default=False,
type=bool` keeps the default `False` when the flag is absent and otherwise
applies Python `bool(...)` to the raw value string, which is `True` exactly
on a non-empty string. -/
def commitFlagOfArg : Option String → Bool
  | none => false
  | some s => if s = "" then false else true

/-- A `datetime.now(timezone.utc)` instant: whole seconds since the epoch
plus a microsecond remainder (`datetime` has microsecond resolution). -/
structure UtcDatetime where
  sec : Int
  micro : Nat

/-- `d + timedelta(minutes=m)`. -/
def addMinutes (d : UtcDatetime) (m : Int) : UtcDatetime :=
  { d with sec := d.sec + 60 * m }

/-- `int(d.timestamp())`: the timestamp is `sec + micro/1e6` and `int(...)`
truncates toward zero (float rounding error of `.timestamp()` not modelled). -/
def intTimestamp (d : UtcDatetime) : Int :=
  if 0 ≤ d.sec ∨ d.micro = 0 then d.sec else d.sec + 1

/-- `_get_future_timestamp_seconds(minutes)` evaluated when the current UTC
time is `now`. -/
def _get_future_timestamp_seconds (now : UtcDatetime) (minutes : Int) : Int :=
  intTimestamp (addMinutes now minutes)

/-- Truncation toward zero of a rational, as Python `int(...)` on a float. -/
def ratTrunc (q : ℚ) : Int :=
  if 0 ≤ q then ⌊q⌋ else ⌈q⌉

/-- The exact epoch-seconds value of an instant, as a rational. -/
def wallClockRat (d : UtcDatetime) : ℚ :=
  (d.sec : ℚ) + (d.micro : ℚ) / 1000000

/-- The parsed command line (`_get_args` result): argparse stores `--file`,
`--table` and `--number` as the raw strings and `--commit` per
`commitFlagOfArg`. -/
structure Args where
  file : String
  table : String
  number : String
  commit : Bool

/-- The substitution dict built at iteration `i`, keyed as in `main`:
`{'UUID': str(uuid.uuid4()), 'NOW': _get_future_timestamp_seconds(),
'BUILD': i, 'FOO': 'BAR'}` (argparse values are substituted via `str(...)`).
`uuidOf` and `clock` are the per-iteration oracles for `uuid.uuid4()` and
`datetime.now(timezone.utc)`. -/
def mappingAt (uuidOf : Int → String) (clock : Int → UtcDatetime) (i : Int) :
    String → Option String := fun name =>
  if name = "UUID" then some (uuidOf i)
  else if name = "NOW" then some (toString (_get_future_timestamp_seconds (clock i) 0))
  else if name = "BUILD" then some (toString i)
  else if name = "FOO" then some "BAR"
  else none

/-- `json.loads(template.substitute({...}))` at iteration `i`. -/
def renderItem (tmpl : String) (uuidOf : Int → String) (clock : Int → UtcDatetime)
    (i : Int) : Except PyError Json :=
  match substitute tmpl (mappingAt uuidOf clock i) with
  | .error e => .error e
  | .ok s =>
    match json_loads s with
    | none => .error .jsonDecodeError
    | some j => .ok j

/-- Interaction with the boto3 batch writer: entering the
`with table.batch_writer()` scope, producing an item for iteration `i`,
`batch.put_item(Item=item)`, and the scope exit (which flushes buffered
items). -/
inductive Event where
  | openBatch : Event
  | render (i : Int) : Event
  | put (i : Int) (item : Json) : Event
  | closeBatch : Event

/-- One console `print` of `main`, with its `msg_prefix` made explicit
(`"[DRY RUN] "` when not committing, `""` otherwise). -/
inductive OutLine where
  | banner (pfx : String) (number : String) (file : String) (table : String) : OutLine
  | progress (pfx : String) (i : Int) : OutLine
  | item (pfx : String) (it : Json) : OutLine
  | done (pfx : String) : OutLine

/-- `range(1, n + 1)`: the iteration indices `1, …, n` (empty for `n ≤ 0`). -/
def pyRange1 (n : Int) : List Int :=
  (List.range' 1 n.toNat).map (fun (k : Nat) => (k : Int))

/-- The loop body of `main` over the remaining iteration indices.  Per
iteration: the periodic progress print (`i % 1000 == 0`), then the render;
a render failure propagates immediately; in commit mode the item goes to
`batch.put_item` (`putOk` tells whether boto3 raises `ClientError` there),
in dry-run mode it is printed.  Returns the prints, the batch events and
the outcome. -/
def runItems (commit : Bool) (pfx : String) (tmpl : String) (uuidOf : Int → String)
    (clock : Int → UtcDatetime) (putOk : Int → Json → Bool) :
    List Int → List OutLine × List Event × Except PyError Unit
  | [] => ([], [], .ok ())
  | i :: rest =>
    let prog : List OutLine := if i % 1000 == 0 then [.progress pfx i] else []
    match renderItem tmpl uuidOf clock i with
    | .error e => (prog, [], .error e)
    | .ok item =>
      if commit then
        if putOk i item then
          let r := runItems commit pfx tmpl uuidOf clock putOk rest
          (prog ++ r.1, .render i :: .put i item :: r.2.1, r.2.2)
        else
          (prog, [.render i, .put i item], .error .clientError)
      else
        let r := runItems commit pfx tmpl uuidOf clock putOk rest
        (prog ++ [.item pfx item] ++ r.1, .render i :: r.2.1, r.2.2)

/-- `msg_prefix = "[DRY RUN] " if not args.commit else ""`. -/
def msgPrefix (commit : Bool) : String :=
  if commit then "" else "[DRY RUN] "

/-- Outcome of one execution of `main(args)`. -/
structure RunOutcome where
  output : List OutLine
  events : List Event
  result : Except PyError Unit

/-- `main(_get_args())` with the template file content `tmpl` and the
environment oracles.  The banner prints first; `dynamodb.Table(...)` makes
no network call; the `with table.batch_writer()` scope always emits its
closing flush (`__exit__` runs on the normal and on the exceptional path);
`int(args.number)` is evaluated inside the scope when the `range` is built;
`Done.` prints only after a fully successful run. -/
def mainRun (args : Args) (tmpl : String) (uuidOf : Int → String)
    (clock : Int → UtcDatetime) (putOk : Int → Json → Bool) : RunOutcome :=
  let pfx := msgPrefix args.commit
  match pyInt args.number with
  | none =>
    { output := [.banner pfx args.number args.file args.table]
      events := [.openBatch, .closeBatch]
      result := .error .valueError }
  | some n =>
    let r := runItems args.commit pfx tmpl uuidOf clock putOk (pyRange1 n)
    { output := .banner pfx args.number args.file args.table ::
        (r.1 ++ match r.2.2 with | .ok _ => [.done pfx] | .error _ => [])
      events := .openBatch :: (r.2.1 ++ [.closeBatch])
      result := r.2.2 }

/-- Process exit status: 0 on success, 1 on an uncaught exception. -/
def exitStatus (r : RunOutcome) : Nat :=
  match r.result with
  | .ok _ => 0
  | .error _ => 1

/-- Iteration indices of the `put_item` calls, in order. -/
def putIndices (evs : List Event) : List Int :=
  evs.filterMap fun e => match e with | .put i _ => some i | _ => none

/-- Iteration indices of the successfully rendered items, in order. -/
def renderIndices (evs : List Event) : List Int :=
  evs.filterMap fun e => match e with | .render i => some i | _ => none

/-- The items printed by `print(f'...Templated item: {item}')`, in order. -/
def itemsPrinted (out : List OutLine) : List Json :=
  out.filterMap fun l => match l with | .item _ j => some j | _ => none

/-- The `msg_prefix` a console line starts with. -/
def linePfx : OutLine → String
  | .banner pfx _ _ _ => pfx
  | .progress pfx _ => pfx
  | .item pfx _ => pfx
  | .done pfx => pfx

/-- Whether a batch event is the opening or the closing of the scoped
batch-writer session. -/
def Event.isSession : Event → Bool
  | .openBatch => true
  | .closeBatch => true
  | _ => false

/-- The supported placeholder names. -/
def supportedVars : List String := ["UUID", "NOW", "BUILD", "FOO"]

/-- The periodic progress line of an iteration, if any. -/
def progLine? (pfx : String) (i : Int) : Option OutLine :=
  if i % 1000 == 0 then some (.progress pfx i) else none

/-- Whether a JSON value is an object (a string-keyed mapping). -/
def isJsonObj : Json → Bool
  | .obj _ => true
  | _ => false

/-- Sample per-iteration `uuid.uuid4()` oracle for concrete runs. -/
def sampleUuid : Int → String :=
  fun i => "00000000-0000-4000-8000-" ++ toString i

/-- Sample `datetime.now(timezone.utc)` oracle for concrete runs. -/
def sampleClock : Int → UtcDatetime :=
  fun _ => ⟨1700000000, 0⟩

/-- A batch writer that never raises. -/
def putAlways : Int → Json → Bool :=
  fun _ _ => true

/-- A batch writer raising `ClientError` on the `k`-th submission. -/
def putFailsAt (k : Int) : Int → Json → Bool :=
  fun i _ => decide (i ≠ k)

/-! ## Helper lemmas -/

theorem pyRange1_eq_nil {n : Int} (h : n ≤ 0) : pyRange1 n = [] := by
  unfold pyRange1
  have : n.toNat = 0 := Int.toNat_of_nonpos h
  simp [this]

theorem pyRange1_eq_cons {n : Int} (h : 1 ≤ n) :
    pyRange1 n = 1 :: (List.range' 2 (n.toNat - 1)).map (fun (k : Nat) => (k : Int)) := by
  unfold pyRange1
  have h1 : n.toNat = (n.toNat - 1) + 1 := by omega
  rw [h1, List.range'_succ]
  simp

theorem length_pyRange1 (n : Int) : (pyRange1 n).length = n.toNat := by
  simp [pyRange1]

theorem mem_pyRange1 {n i : Int} : i ∈ pyRange1 n ↔ 1 ≤ i ∧ i ≤ n := by
  constructor
  · intro h
    simp only [pyRange1, List.mem_map] at h
    obtain ⟨k, hk, rfl⟩ := h
    rw [List.mem_range'_1] at hk
    omega
  · intro ⟨h1, h2⟩
    simp only [pyRange1, List.mem_map]
    refine ⟨i.toNat, ?_, by omega⟩
    rw [List.mem_range'_1]
    omega

theorem pyRange1_getElem? {n i : Int} (h1 : 1 ≤ i) (h2 : i ≤ n) :
    (pyRange1 n)[i.toNat - 1]? = some i := by
  unfold pyRange1
  rw [List.getElem?_map, List.getElem?_range']
  · simp
    omega
  · omega

theorem pyRange1_pairwise (n : Int) : (pyRange1 n).Pairwise (· < ·) := by
  unfold pyRange1
  refine List.Pairwise.map _ ?_ (List.pairwise_lt_range' 1 n.toNat)
  intro a b hab
  exact_mod_cast hab

theorem pyRange1_split {k n : Int} (h1 : 1 ≤ k) (h2 : k ≤ n) :
    pyRange1 n =
      pyRange1 (k - 1) ++ k :: (List.range' (k.toNat + 1) (n.toNat - k.toNat)).map
        (fun (j : Nat) => (j : Int)) := by
  unfold pyRange1
  have ha : (k - 1).toNat = k.toNat - 1 := by omega
  have hb : n.toNat = ((n.toNat - k.toNat) + 1) + (k.toNat - 1) := by omega
  rw [ha, hb, ← List.range'_append_1 1 (k.toNat - 1)]
  have hc : 1 + (k.toNat - 1) = k.toNat := by omega
  rw [hc, List.range'_succ]
  simp only [List.map_append, List.map_cons]
  have hk : (k.toNat : Int) = k := by omega
  rw [hk]
  have hd : n.toNat - k.toNat + 1 + (k.toNat - 1) - k.toNat = n.toNat - k.toNat := by omega
  rw [hd]

theorem pyRange1_lt_of_mem_pred {k i : Int} (h : i ∈ pyRange1 (k - 1)) : i < k := by
  rw [mem_pyRange1] at h
  omega

/-- In match order, the first placeholder whose name the mapping lacks
raises `KeyError` of that name (provided no invalid placeholder precedes
it). -/
theorem substToks_keyError (m : String → Option String) :
    ∀ (ts : List Tok) (v₀ : String), Tok.invalid ∉ ts →
      ((ts.filterMap tokVar?).find? fun v => (m v).isNone) = some v₀ →
      substToks m ts = .error (.keyError v₀) := by
  intro ts
  induction ts with
  | nil => intro v₀ _ hfind; simp at hfind
  | cons t ts ih =>
    intro v₀ hinv hfind
    have hinv' : Tok.invalid ∉ ts := fun hm => hinv (List.mem_cons_of_mem _ hm)
    match t with
    | .lit c =>
      rw [List.filterMap_cons_none (by rfl)] at hfind
      rw [substToks, ih v₀ hinv' hfind]
      rfl
    | .esc =>
      rw [List.filterMap_cons_none (by rfl)] at hfind
      rw [substToks, ih v₀ hinv' hfind]
      rfl
    | .var name =>
      rw [List.filterMap_cons_some (by rfl)] at hfind
      rw [substToks]
      rcases hm : m name with _ | v
      · rw [List.find?_cons_of_pos _ (by simp [hm])] at hfind
        simp only [Option.some.injEq] at hfind
        rw [hfind]
      · rw [List.find?_cons_of_neg _ (by simp [hm])] at hfind
        rw [ih v₀ hinv' hfind]
        rfl
    | .invalid => exact absurd (List.mem_cons_self _ _) hinv

/-- A name outside the supported set is absent from the substitution dict. -/
theorem mappingAt_eq_none {name : String} (u : Int → String) (c : Int → UtcDatetime)
    (i : Int) (h : name ∉ supportedVars) : mappingAt u c i name = none := by
  simp only [supportedVars, List.mem_cons, List.not_mem_nil] at h
  push_neg at h
  obtain ⟨h1, h2, h3, h4, _⟩ := h
  simp [mappingAt, h1, h2, h3, h4]

/-- Conversely, a supported name is always present. -/
theorem mappingAt_isSome {name : String} (u : Int → String) (c : Int → UtcDatetime)
    (i : Int) (h : name ∈ supportedVars) : (mappingAt u c i name).isSome := by
  simp only [supportedVars, List.mem_cons, List.not_mem_nil, or_false] at h
  rcases h with rfl | rfl | rfl | rfl <;> simp [mappingAt]

/-- A `filterMap` over a function that never misses keeps the length. -/
theorem length_filterMap_of_isSome {α β : Type} (f : α → Option β) :
    ∀ l : List α, (∀ i ∈ l, (f i).isSome) → (l.filterMap f).length = l.length := by
  intro l
  induction l with
  | nil => intro _; rfl
  | cons i rest ih =>
    intro h
    rcases hf : f i with _ | b
    · exact absurd (h i (List.mem_cons_self _ _)) (by simp [hf])
    · rw [List.filterMap_cons_some hf, List.length_cons, List.length_cons,
        ih (fun j hj => h j (List.mem_cons_of_mem _ hj))]

/-- The loop itself never opens or closes the batch session. -/
theorem runItems_no_session (commit : Bool) (pfx tmpl : String) (u : Int → String)
    (c : Int → UtcDatetime) (p : Int → Json → Bool) :
    ∀ l : List Int, ∀ e ∈ (runItems commit pfx tmpl u c p l).2.1, e.isSession = false := by
  intro l
  induction l with
  | nil => intro e he; simp [runItems] at he
  | cons i rest ih =>
    intro e he
    rcases hr : renderItem tmpl u c i with err | item <;>
      simp only [runItems, hr] at he
    · simp at he
    · cases commit
      · simp only [Bool.false_eq_true, if_false] at he
        rcases List.mem_cons.mp he with rfl | he'
        · rfl
        · exact ih e he'
      · simp only [if_true] at he
        rcases hp : p i item with _ | _ <;> simp only [hp] at he
        · simp only [Bool.false_eq_true, if_false] at he
          rcases List.mem_cons.mp he with rfl | he'
          · rfl
          · rcases List.mem_cons.mp he' with rfl | he''
            · rfl
            · simp at he''
        · simp only [if_true] at he
          rcases List.mem_cons.mp he with rfl | he'
          · rfl
          · rcases List.mem_cons.mp he' with rfl | he''
            · rfl
            · exact ih e he''

/-- Dry-run loop on indices whose renders all succeed: result `ok`, one
`render` event per index, no `put`, and the printed items are exactly the
rendered items in order. -/
theorem runItems_dry (pfx tmpl : String) (u : Int → String) (c : Int → UtcDatetime)
    (p : Int → Json → Bool) :
    ∀ l : List Int, (∀ i ∈ l, (renderItem tmpl u c i).toOption.isSome) →
      (runItems false pfx tmpl u c p l).2.2 = .ok () ∧
      (runItems false pfx tmpl u c p l).2.1 = l.map Event.render ∧
      itemsPrinted (runItems false pfx tmpl u c p l).1 =
        l.filterMap (fun j => (renderItem tmpl u c j).toOption) ∧
      (∀ x ∈ (runItems false pfx tmpl u c p l).1, linePfx x = pfx) := by
  intro l
  induction l with
  | nil => intro _; refine ⟨rfl, rfl, rfl, ?_⟩; intro x hx; simp [runItems] at hx
  | cons i rest ih =>
    intro h
    have hhead := h i (List.mem_cons_self _ _)
    have htail := fun j hj => h j (List.mem_cons_of_mem _ hj)
    obtain ⟨hres, hevs, hitems, hpfx⟩ := ih htail
    rcases hr : renderItem tmpl u c i with err | item
    · rw [hr] at hhead; simp [Except.toOption] at hhead
    · have hopt : (fun j => (renderItem tmpl u c j).toOption) i = some item := by
        simp only [hr]; rfl
      refine ⟨?_, ?_, ?_, ?_⟩
      · simp only [runItems, hr, Bool.false_eq_true, if_false]; exact hres
      · simp only [runItems, hr, Bool.false_eq_true, if_false, List.map_cons]
        rw [hevs]
      · simp only [runItems, hr, Bool.false_eq_true, if_false]
        rw [List.filterMap_cons_some (f := fun j => (renderItem tmpl u c j).toOption) hopt]
        unfold itemsPrinted at hitems ⊢
        rw [List.filterMap_append, List.filterMap_append, hitems]
        by_cases hi : (i % 1000 == 0) = true
        · rw [if_pos hi]; rfl
        · rw [if_neg hi]; rfl
      · intro x hx
        simp only [runItems, hr, Bool.false_eq_true, if_false] at hx
        rcases List.mem_append.mp hx with hx1 | hx1
        · rcases List.mem_append.mp hx1 with hx2 | hx2
          · by_cases hi : (i % 1000 == 0) = true
            · rw [if_pos hi] at hx2
              rcases List.mem_cons.mp hx2 with rfl | h0
              · rfl
              · simp at h0
            · rw [if_neg hi] at hx2; simp at hx2
          · rcases List.mem_cons.mp hx2 with rfl | h0
            · rfl
            · simp at h0
        · exact hpfx x hx1

/-- Commit-mode loop with successful renders and no write failure: result
`ok`, per index one `render` and one `put` event (in index order), and only
the periodic progress lines are printed. -/
theorem runItems_commit_ok (pfx tmpl : String) (u : Int → String) (c : Int → UtcDatetime)
    (p : Int → Json → Bool) :
    ∀ l : List Int, (∀ i ∈ l, (renderItem tmpl u c i).toOption.isSome) →
      (∀ i ∈ l, ∀ j, p i j = true) →
      (runItems true pfx tmpl u c p l).2.2 = .ok () ∧
      putIndices (runItems true pfx tmpl u c p l).2.1 = l ∧
      renderIndices (runItems true pfx tmpl u c p l).2.1 = l ∧
      (runItems true pfx tmpl u c p l).1 = l.filterMap (progLine? pfx) := by
  intro l
  induction l with
  | nil => intro _ _; exact ⟨rfl, rfl, rfl, rfl⟩
  | cons i rest ih =>
    intro h hp
    have hhead := h i (List.mem_cons_self _ _)
    have htail := fun j hj => h j (List.mem_cons_of_mem _ hj)
    have hptail := fun j hj => hp j (List.mem_cons_of_mem _ hj)
    obtain ⟨hres, hput, hrend, hout⟩ := ih htail hptail
    rcases hr : renderItem tmpl u c i with err | item
    · rw [hr] at hhead; simp [Except.toOption] at hhead
    · have hpi := hp i (List.mem_cons_self _ _) item
      refine ⟨?_, ?_, ?_, ?_⟩
      · simp only [runItems, hr, if_true, hpi]; exact hres
      · simp only [runItems, hr, if_true, hpi]
        unfold putIndices at hput ⊢
        simp only [List.filterMap_cons]
        rw [hput]
      · simp only [runItems, hr, if_true, hpi]
        unfold renderIndices at hrend ⊢
        simp only [List.filterMap_cons]
        rw [hrend]
      · simp only [runItems, hr, if_true, hpi]
        rw [hout]
        by_cases hi : (i % 1000 == 0) = true
        · rw [if_pos hi, List.filterMap_cons_some
            (show progLine? pfx i = some (OutLine.progress pfx i) by simp [progLine?, hi])]
          rfl
        · rw [if_neg hi, List.filterMap_cons_none
            (show progLine? pfx i = none by simp [progLine?, hi])]
          rfl

/-- Commit-mode loop where every write before index `k` succeeds and the
write of `k`'s item raises: the loop stops at `k` with `ClientError`; the
puts performed are exactly those for the prefix and `k`; nothing after `k`
is rendered or submitted. -/
theorem runItems_commit_fail (pfx tmpl : String) (u : Int → String)
    (c : Int → UtcDatetime) (p : Int → Json → Bool) (k : Int) (l₂ : List Int) :
    ∀ l₁ : List Int, (∀ i ∈ l₁, (renderItem tmpl u c i).toOption.isSome) →
      (renderItem tmpl u c k).toOption.isSome →
      (∀ i ∈ l₁, ∀ j, p i j = true) →
      (∀ j, p k j = false) →
      (runItems true pfx tmpl u c p (l₁ ++ k :: l₂)).2.2 = .error .clientError ∧
      putIndices (runItems true pfx tmpl u c p (l₁ ++ k :: l₂)).2.1 = l₁ ++ [k] ∧
      renderIndices (runItems true pfx tmpl u c p (l₁ ++ k :: l₂)).2.1 = l₁ ++ [k] ∧
      (runItems true pfx tmpl u c p (l₁ ++ k :: l₂)).1 =
        (l₁ ++ [k]).filterMap (progLine? pfx) := by
  intro l₁
  induction l₁ with
  | nil =>
    intro _ hrk hp hpk
    rw [Option.isSome_iff_exists] at hrk
    obtain ⟨item, hitem⟩ := hrk
    have hr : renderItem tmpl u c k = .ok item := by
      rcases hq : renderItem tmpl u c k with err | it <;> rw [hq] at hitem
      · simp [Except.toOption] at hitem
      · simp [Except.toOption] at hitem; rw [hitem]
    simp only [List.nil_append]
    refine ⟨?_, ?_, ?_, ?_⟩
    · simp [runItems, hr, hpk item]
    · simp [runItems, hr, hpk item, putIndices]
    · simp [runItems, hr, hpk item, renderIndices]
    · simp only [runItems, hr, if_true, hpk item, Bool.false_eq_true, if_false]
      by_cases hi : (k % 1000 == 0) = true
      · rw [if_pos hi, List.filterMap_cons_some
          (show progLine? pfx k = some (OutLine.progress pfx k) by simp [progLine?, hi]),
          List.filterMap_nil]
      · rw [if_neg hi, List.filterMap_cons_none
          (show progLine? pfx k = none by simp [progLine?, hi]),
          List.filterMap_nil]
  | cons i rest ih =>
    intro h hrk hp hpk
    have hhead := h i (List.mem_cons_self _ _)
    have htail := fun j hj => h j (List.mem_cons_of_mem _ hj)
    have hptail := fun j hj => hp j (List.mem_cons_of_mem _ hj)
    obtain ⟨hres, hput, hrend, hout⟩ := ih htail hrk hptail hpk
    rcases hr : renderItem tmpl u c i with err | item
    · rw [hr] at hhead; simp [Except.toOption] at hhead
    · have hpi := hp i (List.mem_cons_self _ _) item
      simp only [List.cons_append]
      refine ⟨?_, ?_, ?_, ?_⟩ <;>
        simp only [runItems, hr, if_true, hpi]
      · exact hres
      · unfold putIndices at hput ⊢
        simp only [List.filterMap_cons]
        rw [hput]
      · unfold renderIndices at hrend ⊢
        simp only [List.filterMap_cons]
        rw [hrend]
      · rw [hout]
        by_cases hi : (i % 1000 == 0) = true
        · rw [if_pos hi, List.filterMap_cons_some
            (show progLine? pfx i = some (OutLine.progress pfx i) by simp [progLine?, hi])]
          rfl
        · rw [if_neg hi, List.filterMap_cons_none
            (show progLine? pfx i = none by simp [progLine?, hi])]
          rfl

/-- A failing render at the head index aborts the loop at once: only the
(possible) progress line was printed, no batch event happened. -/
theorem runItems_head_fail (commit : Bool) (pfx tmpl : String) (u : Int → String)
    (c : Int → UtcDatetime) (p : Int → Json → Bool) (i : Int) (rest : List Int)
    (e : PyError) (hr : renderItem tmpl u c i = .error e) :
    runItems commit pfx tmpl u c p (i :: rest) =
      ((progLine? pfx i).toList, [], .error e) := by
  simp only [runItems, hr, progLine?]
  by_cases hi : (i % 1000 == 0) = true
  · rw [if_pos hi, if_pos hi]; rfl
  · rw [if_neg hi, if_neg hi]; rfl

/-- `int(d.timestamp())` is exactly the toward-zero truncation of the real
epoch-seconds value of the instant. -/
theorem intTimestamp_eq_ratTrunc (d : UtcDatetime) (h : d.micro < 1000000) :
    intTimestamp d = ratTrunc (wallClockRat d) := by
  have hnum : (0 : ℚ) < 1000000 := by norm_num
  have hfrac0 : (0 : ℚ) ≤ (d.micro : ℚ) / 1000000 := by positivity
  have hfrac1 : (d.micro : ℚ) / 1000000 < 1 := by
    rw [div_lt_one hnum]
    exact_mod_cast h
  by_cases h0 : 0 ≤ d.sec
  · have hq : 0 ≤ wallClockRat d := by
      unfold wallClockRat
      have : (0 : ℚ) ≤ (d.sec : ℚ) := by exact_mod_cast h0
      linarith
    rw [intTimestamp, if_pos (Or.inl h0), ratTrunc, if_pos hq, wallClockRat,
      Int.floor_int_add]
    have : ⌊(d.micro : ℚ) / 1000000⌋ = 0 :=
      Int.floor_eq_zero_iff.mpr ⟨hfrac0, hfrac1⟩
    rw [this, add_zero]
  · by_cases hμ : d.micro = 0
    · have hsec : wallClockRat d = (d.sec : ℚ) := by
        unfold wallClockRat
        rw [hμ]
        norm_num
      have hq : ¬ 0 ≤ wallClockRat d := by
        rw [hsec]
        intro hc
        exact h0 (by exact_mod_cast hc)
      rw [intTimestamp, if_pos (Or.inr hμ), ratTrunc, if_neg hq, hsec, Int.ceil_intCast]
    · have hs1 : d.sec + 1 ≤ 0 := by omega
      have hq : ¬ 0 ≤ wallClockRat d := by
        unfold wallClockRat
        intro hc
        have hcast : (d.sec : ℚ) + 1 ≤ 0 := by exact_mod_cast hs1
        linarith
      rw [intTimestamp, if_neg (fun hc => hc.elim h0 hμ), ratTrunc, if_neg hq,
        wallClockRat, add_comm ((d.sec : ℚ)) ((d.micro : ℚ) / 1000000),
        Int.ceil_add_int]
      have hone : ⌈(d.micro : ℚ) / 1000000⌉ = 1 := by
        rw [Int.ceil_eq_iff]
        constructor
        · have hpos : (0 : ℚ) < (d.micro : ℚ) := by
            exact_mod_cast Nat.pos_of_ne_zero hμ
          have hpos2 : (0 : ℚ) < (d.micro : ℚ) / 1000000 := by positivity
          push_cast
          linarith
        · push_cast
          linarith
      rw [hone]
      omega

/-- `_get_future_timestamp_seconds(minutes)` is the truncated epoch-seconds
value of `now + 60 * minutes` seconds. -/
theorem timestamp_formula (d : UtcDatetime) (m : Int) (h : d.micro < 1000000) :
    _get_future_timestamp_seconds d m = ratTrunc (wallClockRat d + 60 * (m : ℚ)) := by
  have h1 : wallClockRat (addMinutes d m) = wallClockRat d + 60 * (m : ℚ) := by
    unfold wallClockRat addMinutes
    push_cast
    ring
  rw [_get_future_timestamp_seconds, intTimestamp_eq_ratTrunc (addMinutes d m) h, h1]

/-- Projections of `mainRun` when `int(args.number)` succeeds. -/
theorem mainRun_result (args : Args) (tmpl : String) (u : Int → String)
    (c : Int → UtcDatetime) (p : Int → Json → Bool) (n : Int)
    (hn : pyInt args.number = some n) :
    (mainRun args tmpl u c p).result =
      (runItems args.commit (msgPrefix args.commit) tmpl u c p (pyRange1 n)).2.2 := by
  simp only [mainRun, hn]

/-- The batch events of a run: the session opening, the loop's events, and
the closing flush. -/
theorem mainRun_events (args : Args) (tmpl : String) (u : Int → String)
    (c : Int → UtcDatetime) (p : Int → Json → Bool) (n : Int)
    (hn : pyInt args.number = some n) :
    (mainRun args tmpl u c p).events =
      .openBatch ::
        ((runItems args.commit (msgPrefix args.commit) tmpl u c p (pyRange1 n)).2.1 ++
          [.closeBatch]) := by
  simp only [mainRun, hn]

/-- The console output of a run: the banner, the loop's lines, and `Done.`
exactly when the loop succeeded. -/
theorem mainRun_output (args : Args) (tmpl : String) (u : Int → String)
    (c : Int → UtcDatetime) (p : Int → Json → Bool) (n : Int)
    (hn : pyInt args.number = some n) :
    (mainRun args tmpl u c p).output =
      .banner (msgPrefix args.commit) args.number args.file args.table ::
        ((runItems args.commit (msgPrefix args.commit) tmpl u c p (pyRange1 n)).1 ++
          match (runItems args.commit (msgPrefix args.commit) tmpl u c p (pyRange1 n)).2.2 with
          | .ok _ => [.done (msgPrefix args.commit)]
          | .error _ => []) := by
  simp only [mainRun, hn]

/-- `putIndices` and `renderIndices` skip session events and each other. -/
theorem putIndices_renders (l : List Int) : putIndices (l.map Event.render) = [] := by
  induction l with
  | nil => rfl
  | cons i rest ih =>
    unfold putIndices at ih ⊢
    rw [List.map_cons, List.filterMap_cons_none (by rfl), ih]

/-- The indices of the `render` events of a pure dry-run trace. -/
theorem renderIndices_renders (l : List Int) : renderIndices (l.map Event.render) = l := by
  induction l with
  | nil => rfl
  | cons i rest ih =>
    unfold renderIndices at ih ⊢
    rw [List.map_cons, List.filterMap_cons_some (by rfl), ih]

/-- Only the iterations at multiples of 1000 print progress lines. -/
theorem filterMap_progLine (pfx : String) :
    ∀ l : List Int, l.filterMap (progLine? pfx) =
      (l.filter (fun i => i % 1000 == 0)).map (OutLine.progress pfx) := by
  intro l
  induction l with
  | nil => rfl
  | cons i rest ih =>
    by_cases hi : (i % 1000 == 0) = true
    · simp [List.filterMap_cons, List.filter_cons, progLine?, hi, ih]
    · simp [List.filterMap_cons, List.filter_cons, progLine?, hi, ih]

/-- `range(1, k + 1)` arises from `range(1, k)` by appending `k`. -/
theorem pyRange1_concat {k : Int} (h : 1 ≤ k) :
    pyRange1 (k - 1) ++ [k] = pyRange1 k := by
  unfold pyRange1
  have ha : (k - 1).toNat = k.toNat - 1 := by omega
  have hb : k.toNat = (k.toNat - 1) + 1 := by omega
  rw [ha, hb, List.range'_1_concat]
  simp only [List.map_append, List.map_cons, List.map_nil]
  have hk : ((1 + (k.toNat - 1) : Nat) : Int) = k := by omega
  rw [hk]
  rfl

/-- A rendered item always came out of `json.loads`. -/
theorem renderItem_ok_json (tmpl : String) (u : Int → String) (c : Int → UtcDatetime)
    (i : Int) (j : Json) (h : renderItem tmpl u c i = .ok j) :
    ∃ s, json_loads s = some j := by
  unfold renderItem at h
  rcases hs : substitute tmpl (mappingAt u c i) with e | s <;> simp only [hs] at h
  · exact absurd h (by simp)
  · rcases hj : json_loads s with _ | j2 <;> rw [hj] at h
    · exact absurd h (by simp)
    · simp only [Except.ok.injEq] at h
      exact ⟨s, by rw [hj, h]⟩

/-- Session wrapping does not add `put` events. -/
theorem putIndices_wrap (evs : List Event) :
    putIndices (.openBatch :: (evs ++ [.closeBatch])) = putIndices evs := by
  unfold putIndices
  rw [List.filterMap_cons_none (by rfl), List.filterMap_append]
  have h : List.filterMap
      (fun e => match e with | Event.put i _ => some i | _ => none)
      [Event.closeBatch] = ([] : List Int) := rfl
  rw [h, List.append_nil]

/-- Session wrapping does not add `render` events. -/
theorem renderIndices_wrap (evs : List Event) :
    renderIndices (.openBatch :: (evs ++ [.closeBatch])) = renderIndices evs := by
  unfold renderIndices
  rw [List.filterMap_cons_none (by rfl), List.filterMap_append]
  have h : List.filterMap
      (fun e => match e with | Event.render i => some i | _ => none)
      [Event.closeBatch] = ([] : List Int) := rfl
  rw [h, List.append_nil]

/-- Neither the banner nor a final `Done.` is an item line. -/
theorem itemsPrinted_wrap (pfx nu f t pfx2 : String) (out : List OutLine) :
    itemsPrinted (.banner pfx nu f t :: (out ++ [.done pfx2])) = itemsPrinted out := by
  unfold itemsPrinted
  rw [List.filterMap_cons_none (by rfl), List.filterMap_append]
  have h : List.filterMap
      (fun l => match l with | OutLine.item _ j => some j | _ => none)
      [OutLine.done pfx2] = ([] : List Json) := rfl
  rw [h, List.append_nil]

/-! ## Claim theorems -/

/-- C3: for every N and every i in 1..N, the i-th iteration index is i, the
`BUILD` value substituted into the i-th rendered item is (the string of) i,
the per-iteration `BUILD` substitution values over the run are exactly
1, 2, …, N in order, and the iteration sequence is strictly increasing (no
gaps, no duplicates) of length N. -/
theorem C3_build_sequence (n i : Int) (u : Int → String) (c : Int → UtcDatetime)
    (h1 : 1 ≤ i) (h2 : i ≤ n) :
    (pyRange1 n)[i.toNat - 1]? = some i ∧
    mappingAt u c i "BUILD" = some (toString i) ∧
    (pyRange1 n).map (fun j => mappingAt u c j "BUILD") =
      (pyRange1 n).map (fun j => some (toString j)) ∧
    List.Pairwise (· < ·) (pyRange1 n) ∧
    (pyRange1 n).length = n.toNat := by
  refine ⟨pyRange1_getElem? h1 h2, rfl, ?_, pyRange1_pairwise n, length_pyRange1 n⟩
  exact List.map_congr_left (fun j _ => rfl)

/-- Witness for C3 at N = 5, i = 3. -/
theorem C3_build_sequence_witness :
    (pyRange1 5)[(3 : Int).toNat - 1]? = some 3 ∧
    mappingAt sampleUuid sampleClock 3 "BUILD" = some (toString (3 : Int)) ∧
    (pyRange1 5).map (fun j => mappingAt sampleUuid sampleClock j "BUILD") =
      (pyRange1 5).map (fun j => some (toString j)) ∧
    List.Pairwise (· < ·) (pyRange1 5) ∧
    (pyRange1 5).length = (5 : Int).toNat :=
  C3_build_sequence 5 3 sampleUuid sampleClock (by decide) (by decide)

/-- C7: on every exit path — an unparsable count, a render failure, a write
failure, or normal completion — the batch-writer session trace is exactly
one opening, the loop's events (none of which is a session event), and one
closing flush at the very end. -/
theorem C7_session_always_closed (args : Args) (tmpl : String) (u : Int → String)
    (c : Int → UtcDatetime) (p : Int → Json → Bool) :
    ∃ mid, (mainRun args tmpl u c p).events = .openBatch :: (mid ++ [.closeBatch]) ∧
      ∀ e ∈ mid, e.isSession = false := by
  rcases hpn : pyInt args.number with _ | n
  · refine ⟨[], ?_, ?_⟩
    · simp only [mainRun, hpn]
      rfl
    · intro e he
      simp at he
  · refine ⟨(runItems args.commit (msgPrefix args.commit) tmpl u c p (pyRange1 n)).2.1,
      mainRun_events args tmpl u c p n hpn, ?_⟩
    exact runItems_no_session args.commit (msgPrefix args.commit) tmpl u c p (pyRange1 n)

/-- C8: for every minutes offset m, the timestamp helper returns the
truncated (toward zero) epoch-seconds value of the current UTC time plus
60·m seconds; and the renderer's `NOW` value is the helper applied with
m = 0 to the wall clock of that iteration. -/
theorem C8_now_timestamp (d : UtcDatetime) (m : Int) (h : d.micro < 1000000)
    (u : Int → String) (c : Int → UtcDatetime) (i : Int) :
    _get_future_timestamp_seconds d m = ratTrunc (wallClockRat d + 60 * (m : ℚ)) ∧
    mappingAt u c i "NOW" = some (toString (_get_future_timestamp_seconds (c i) 0)) :=
  ⟨timestamp_formula d m h, rfl⟩

/-- Witness for C8 at a concrete instant and m = 5. -/
theorem C8_now_timestamp_witness :
    _get_future_timestamp_seconds ⟨1700000000, 123456⟩ 5 =
      ratTrunc (wallClockRat ⟨1700000000, 123456⟩ + 60 * ((5 : Int) : ℚ)) ∧
    mappingAt sampleUuid sampleClock 1 "NOW" =
      some (toString (_get_future_timestamp_seconds (sampleClock 1) 0)) :=
  C8_now_timestamp ⟨1700000000, 123456⟩ 5 (by decide) sampleUuid sampleClock 1

/-- C10: when `--number` parses to N ≤ 0 the loop body never runs — no item
is rendered, printed or submitted — yet the banner and the final `Done.`
print and the process exits 0: positivity is never enforced. -/
theorem C10_nonpositive_count (args : Args) (tmpl : String) (u : Int → String)
    (c : Int → UtcDatetime) (p : Int → Json → Bool) (n : Int)
    (hn : pyInt args.number = some n) (hle : n ≤ 0) :
    (mainRun args tmpl u c p).output =
      [.banner (msgPrefix args.commit) args.number args.file args.table,
        .done (msgPrefix args.commit)] ∧
    (mainRun args tmpl u c p).events = [.openBatch, .closeBatch] ∧
    itemsPrinted (mainRun args tmpl u c p).output = [] ∧
    putIndices (mainRun args tmpl u c p).events = [] ∧
    (mainRun args tmpl u c p).result = .ok () ∧
    exitStatus (mainRun args tmpl u c p) = 0 := by
  have hl : pyRange1 n = [] := pyRange1_eq_nil hle
  refine ⟨?_, ?_, ?_, ?_, ?_, ?_⟩
  · rw [mainRun_output args tmpl u c p n hn, hl]
    rfl
  · rw [mainRun_events args tmpl u c p n hn, hl]
    rfl
  · rw [mainRun_output args tmpl u c p n hn, hl]
    rfl
  · rw [mainRun_events args tmpl u c p n hn, hl]
    rfl
  · rw [mainRun_result args tmpl u c p n hn, hl]
    rfl
  · unfold exitStatus
    rw [mainRun_result args tmpl u c p n hn, hl]
    rfl

/-- Witness for C10 at `--number = "-3"`. -/
theorem C10_nonpositive_count_witness :
    (mainRun ⟨"t.json", "tbl", "-3", false⟩ "$BUILD" sampleUuid sampleClock
        putAlways).output =
      [.banner (msgPrefix false) "-3" "t.json" "tbl", .done (msgPrefix false)] ∧
    (mainRun ⟨"t.json", "tbl", "-3", false⟩ "$BUILD" sampleUuid sampleClock
        putAlways).events = [.openBatch, .closeBatch] :=
  let h := C10_nonpositive_count ⟨"t.json", "tbl", "-3", false⟩ "$BUILD" sampleUuid
    sampleClock putAlways (-3) rfl (by decide)
  ⟨h.1, h.2.1⟩

/-- C1 counterexample: invoking with `--commit=false` does NOT give a dry
run.  argparse's `type=bool` applies Python `bool("false")`, which is
`True`, so with a valid template and N = 3 the run performs three
`put_item` submissions (not zero network calls) and prints no dry-run item
line at all. -/
theorem C1_commit_false_counterexample :
    commitFlagOfArg (some "false") = true ∧
    putIndices ((mainRun ⟨"t.json", "tbl", "3", commitFlagOfArg (some "false")⟩
      "$BUILD" sampleUuid sampleClock putAlways).events) = [1, 2, 3] ∧
    itemsPrinted ((mainRun ⟨"t.json", "tbl", "3", commitFlagOfArg (some "false")⟩
      "$BUILD" sampleUuid sampleClock putAlways).output) = [] := by
  refine ⟨rfl, ?_, rfl⟩
  rfl

/-- C1 (amended): when the `--commit` flag is absent (or given the empty
string, the only falsy argument string), the run is a dry run: no `put_item`
submission at all, exactly N rendered items printed, every line carrying
the `"[DRY RUN] "` prefix, a final `Done.` line, and exit status 0. -/
theorem C1_dry_run_amended (args : Args) (tmpl : String) (u : Int → String)
    (c : Int → UtcDatetime) (p : Int → Json → Bool) (n : Int)
    (hc : args.commit = commitFlagOfArg none)
    (hn : pyInt args.number = some n) (h1 : 1 ≤ n)
    (hr : ∀ i ∈ pyRange1 n, (renderItem tmpl u c i).toOption.isSome) :
    putIndices (mainRun args tmpl u c p).events = [] ∧
    (itemsPrinted (mainRun args tmpl u c p).output).length = n.toNat ∧
    (∀ x ∈ (mainRun args tmpl u c p).output, linePfx x = "[DRY RUN] ") ∧
    (mainRun args tmpl u c p).output.getLast? = some (.done "[DRY RUN] ") ∧
    (mainRun args tmpl u c p).result = .ok () ∧
    exitStatus (mainRun args tmpl u c p) = 0 ∧
    commitFlagOfArg (some "") = commitFlagOfArg none := by
  have hcf : args.commit = false := hc
  obtain ⟨hres, hevs, hitems, hpfx⟩ :=
    runItems_dry (msgPrefix false) tmpl u c p (pyRange1 n) hr
  have hout := mainRun_output args tmpl u c p n hn
  have hev := mainRun_events args tmpl u c p n hn
  have hre := mainRun_result args tmpl u c p n hn
  rw [hcf] at hout hev hre
  refine ⟨?_, ?_, ?_, ?_, ?_, ?_, rfl⟩
  · rw [hev, putIndices_wrap, hevs, putIndices_renders]
  · rw [hout, hres, itemsPrinted_wrap, hitems,
      length_filterMap_of_isSome _ (pyRange1 n) hr, length_pyRange1]
  · intro x hx
    rw [hout] at hx
    rcases List.mem_cons.mp hx with rfl | hx1
    · rfl
    · rcases List.mem_append.mp hx1 with hx2 | hx2
      · exact hpfx x hx2
      · rw [hres] at hx2
        rcases List.mem_cons.mp hx2 with rfl | hx3
        · rfl
        · simp at hx3
  · rw [hout, hres, ← List.cons_append, List.getLast?_concat]
    rfl
  · rw [hre, hres]
  · unfold exitStatus
    rw [hre, hres]

/-- Witness for the amended C1 at N = 3 with a template whose renders all
succeed. -/
theorem C1_dry_run_amended_witness :
    putIndices ((mainRun ⟨"t.json", "tbl", "3", commitFlagOfArg none⟩ "1"
      sampleUuid sampleClock putAlways).events) = [] ∧
    (itemsPrinted ((mainRun ⟨"t.json", "tbl", "3", commitFlagOfArg none⟩ "1"
      sampleUuid sampleClock putAlways).output)).length = (3 : Int).toNat :=
  let h := C1_dry_run_amended ⟨"t.json", "tbl", "3", commitFlagOfArg none⟩ "1"
    sampleUuid sampleClock putAlways 3 rfl rfl (by decide) (fun i _ => rfl)
  ⟨h.1, h.2.1⟩

/-- C2 counterexample: in commit mode with N = 2500 the console output does
NOT consist only of the two progress lines plus `Done.` — the first line is
the startup banner `Batch creating 2500 items …`. -/
theorem C2_only_progress_counterexample :
    (mainRun ⟨"t.json", "tbl", "2500", commitFlagOfArg (some "true")⟩ "$BUILD"
        sampleUuid sampleClock putAlways).output.head? =
      some (.banner "" "2500" "t.json" "tbl") ∧
    ¬ ((mainRun ⟨"t.json", "tbl", "2500", commitFlagOfArg (some "true")⟩ "$BUILD"
        sampleUuid sampleClock putAlways).output =
      [.progress "" 1000, .progress "" 2000, .done ""]) := by
  have hb : (mainRun ⟨"t.json", "tbl", "2500", commitFlagOfArg (some "true")⟩ "$BUILD"
      sampleUuid sampleClock putAlways).output.head? =
      some (.banner "" "2500" "t.json" "tbl") := rfl
  refine ⟨hb, fun h => ?_⟩
  rw [h] at hb
  simp at hb

/-- C2 (amended): in commit mode with a valid template and N = 2500, the
console output is the startup banner, the two progress lines (at i = 1000
and i = 2000, with no dry-run prefix), and a final `Done.` line; and all
2500 items are submitted to the batch writer exactly once each, in
ascending `BUILD` order. -/
theorem C2_commit_run_amended (args : Args) (tmpl : String) (u : Int → String)
    (c : Int → UtcDatetime) (p : Int → Json → Bool)
    (hc : args.commit = commitFlagOfArg (some "true"))
    (hn : pyInt args.number = some 2500)
    (hr : ∀ i ∈ pyRange1 2500, (renderItem tmpl u c i).toOption.isSome)
    (hp : ∀ i ∈ pyRange1 2500, ∀ j, p i j = true) :
    (mainRun args tmpl u c p).output =
      [.banner "" args.number args.file args.table,
        .progress "" 1000, .progress "" 2000, .done ""] ∧
    putIndices (mainRun args tmpl u c p).events = pyRange1 2500 ∧
    (putIndices (mainRun args tmpl u c p).events).length = 2500 ∧
    List.Pairwise (· < ·) (putIndices (mainRun args tmpl u c p).events) ∧
    (mainRun args tmpl u c p).result = .ok () := by
  have hcf : args.commit = true := hc
  obtain ⟨hres, hput, hrend, hout1⟩ :=
    runItems_commit_ok (msgPrefix true) tmpl u c p (pyRange1 2500) hr hp
  have hout := mainRun_output args tmpl u c p 2500 hn
  have hev := mainRun_events args tmpl u c p 2500 hn
  have hre := mainRun_result args tmpl u c p 2500 hn
  rw [hcf] at hout hev hre
  have hfil : (pyRange1 2500).filter (fun i => i % 1000 == 0) = [1000, 2000] := by
    decide
  refine ⟨?_, ?_, ?_, ?_, ?_⟩
  · rw [hout, hres, hout1, filterMap_progLine, hfil]
    rfl
  · rw [hev, putIndices_wrap, hput]
  · rw [hev, putIndices_wrap, hput, length_pyRange1]
    rfl
  · rw [hev, putIndices_wrap, hput]
    exact pyRange1_pairwise 2500
  · rw [hre, hres]

/-- Witness for the amended C2: a concrete commit run at N = 2500. -/
theorem C2_commit_run_amended_witness :
    (mainRun ⟨"t.json", "tbl", "2500", commitFlagOfArg (some "true")⟩ "1"
        sampleUuid sampleClock putAlways).output =
      [.banner "" "2500" "t.json" "tbl",
        .progress "" 1000, .progress "" 2000, .done ""] ∧
    putIndices ((mainRun ⟨"t.json", "tbl", "2500", commitFlagOfArg (some "true")⟩ "1"
        sampleUuid sampleClock putAlways).events) = pyRange1 2500 :=
  let h := C2_commit_run_amended ⟨"t.json", "tbl", "2500", commitFlagOfArg (some "true")⟩
    "1" sampleUuid sampleClock putAlways rfl rfl (fun i _ => rfl) (fun i _ j => rfl)
  ⟨h.1, h.2.1⟩

/-- C4 counterexample: a dry run's printed items need not be JSON objects.
The template `[1]` is well-formed JSON under every substitution (it has no
placeholder), yet the single item printed at N = 1 is a JSON array. -/
theorem C4_json_object_counterexample :
    (renderItem "[1]" sampleUuid sampleClock 1).toOption.isSome = true ∧
    itemsPrinted ((mainRun ⟨"t.json", "tbl", "1", false⟩ "[1]" sampleUuid
      sampleClock putAlways).output) = [Json.arr [Json.num 1]] ∧
    ((itemsPrinted ((mainRun ⟨"t.json", "tbl", "1", false⟩ "[1]" sampleUuid
      sampleClock putAlways).output)).all isJsonObj) = false :=
  ⟨rfl, rfl, rfl⟩

/-- C4 (amended): for every N ≥ 1, when the template
renders to well-formed JSON at every iteration, a dry run prints exactly N
rendered items, namely the successive `json.loads` results — each a
syntactically valid JSON value (an object exactly when the template is). -/
theorem C4_dry_run_items_amended (args : Args) (tmpl : String) (u : Int → String)
    (c : Int → UtcDatetime) (p : Int → Json → Bool) (n : Int)
    (hc : args.commit = false)
    (hn : pyInt args.number = some n) (h1 : 1 ≤ n)
    (hr : ∀ i ∈ pyRange1 n, (renderItem tmpl u c i).toOption.isSome) :
    (itemsPrinted (mainRun args tmpl u c p).output).length = n.toNat ∧
    itemsPrinted (mainRun args tmpl u c p).output =
      (pyRange1 n).filterMap (fun j => (renderItem tmpl u c j).toOption) ∧
    ∀ j ∈ itemsPrinted (mainRun args tmpl u c p).output, ∃ s, json_loads s = some j := by
  obtain ⟨hres, hevs, hitems, hpfx⟩ :=
    runItems_dry (msgPrefix false) tmpl u c p (pyRange1 n) hr
  have hout := mainRun_output args tmpl u c p n hn
  rw [hc] at hout
  have hip : itemsPrinted (mainRun args tmpl u c p).output =
      (pyRange1 n).filterMap (fun j => (renderItem tmpl u c j).toOption) := by
    rw [hout, hres, itemsPrinted_wrap, hitems]
  refine ⟨?_, hip, ?_⟩
  · rw [hip, length_filterMap_of_isSome _ (pyRange1 n) hr, length_pyRange1]
  · intro j hj
    rw [hip] at hj
    obtain ⟨i0, hi0, hfi⟩ := List.mem_filterMap.mp hj
    have hok : renderItem tmpl u c i0 = .ok j := by
      rcases hq : renderItem tmpl u c i0 with e | j2 <;> rw [hq] at hfi
      · simp [Except.toOption] at hfi
      · simp [Except.toOption] at hfi
        rw [hfi]
    exact renderItem_ok_json tmpl u c i0 j hok

/-- Witness for the amended C4 at N = 3. -/
theorem C4_dry_run_items_amended_witness :
    (itemsPrinted ((mainRun ⟨"t.json", "tbl", "3", false⟩ "1" sampleUuid
      sampleClock putAlways).output)).length = (3 : Int).toNat ∧
    itemsPrinted ((mainRun ⟨"t.json", "tbl", "3", false⟩ "1" sampleUuid
      sampleClock putAlways).output) =
      (pyRange1 3).filterMap (fun j => (renderItem "1" sampleUuid sampleClock j).toOption) :=
  let h := C4_dry_run_items_amended ⟨"t.json", "tbl", "3", false⟩ "1" sampleUuid
    sampleClock putAlways 3 rfl rfl (by decide) (fun i _ => rfl)
  ⟨h.1, h.2.1⟩

/-- C5: a template whose placeholders scan cleanly but reference a name
outside {UUID, NOW, BUILD, FOO} makes the first iteration's substitution
raise `KeyError` (of an unsupported name): the run ends with that error and
exit status 1, with nothing rendered, nothing submitted to the table, and
no item printed. -/
theorem C5_unsupported_placeholder (args : Args) (tmpl : String) (u : Int → String)
    (c : Int → UtcDatetime) (p : Int → Json → Bool) (n : Int) (X : String)
    (hscan : templateScanOk tmpl = true)
    (hmem : X ∈ templateVars tmpl)
    (hX : X ∉ supportedVars)
    (hn : pyInt args.number = some n) (h1 : 1 ≤ n) :
    (∃ Y, Y ∉ supportedVars ∧ (mainRun args tmpl u c p).result = .error (.keyError Y)) ∧
    exitStatus (mainRun args tmpl u c p) = 1 ∧
    putIndices (mainRun args tmpl u c p).events = [] ∧
    renderIndices (mainRun args tmpl u c p).events = [] ∧
    itemsPrinted (mainRun args tmpl u c p).output = [] := by
  have hinv : Tok.invalid ∉ scanTemplate (tmpl.length + 1) tmpl.toList := by
    unfold templateScanOk at hscan
    exact of_decide_eq_true hscan
  have hXnone : (mappingAt u c 1 X).isNone := by
    rw [mappingAt_eq_none u c 1 hX]
    rfl
  have hfind : ∃ v₀, ((templateVars tmpl).find? fun v => (mappingAt u c 1 v).isNone) =
      some v₀ := by
    rw [← Option.isSome_iff_exists, List.find?_isSome]
    exact ⟨X, hmem, hXnone⟩
  obtain ⟨v₀, hv₀⟩ := hfind
  have hv₀p : (mappingAt u c 1 v₀).isNone :=
    List.find?_some (p := fun v => (mappingAt u c 1 v).isNone) hv₀
  have hv₀X : v₀ ∉ supportedVars := by
    intro hin
    have h2 := mappingAt_isSome u c 1 hin
    rcases hq : mappingAt u c 1 v₀ with _ | v <;> rw [hq] at hv₀p h2 <;>
      simp at hv₀p h2
  have hfind' : (((scanTemplate (tmpl.length + 1) tmpl.toList).filterMap tokVar?).find?
      fun v => (mappingAt u c 1 v).isNone) = some v₀ := hv₀
  have hsub : substitute tmpl (mappingAt u c 1) = .error (.keyError v₀) := by
    unfold substitute
    rw [substToks_keyError (mappingAt u c 1) _ v₀ hinv hfind']
    rfl
  have hrend : renderItem tmpl u c 1 = .error (.keyError v₀) := by
    unfold renderItem
    rw [hsub]
  have hsplit := pyRange1_eq_cons h1
  have hrun := runItems_head_fail args.commit (msgPrefix args.commit) tmpl u c p 1
    ((List.range' 2 (n.toNat - 1)).map (fun (k : Nat) => (k : Int))) _ hrend
  have hout := mainRun_output args tmpl u c p n hn
  have hev := mainRun_events args tmpl u c p n hn
  have hre := mainRun_result args tmpl u c p n hn
  rw [hsplit, hrun] at hout hev hre
  refine ⟨⟨v₀, hv₀X, ?_⟩, ?_, ?_, ?_, ?_⟩
  · rw [hre]
  · unfold exitStatus
    rw [hre]
  · rw [hev, putIndices_wrap]
    rfl
  · rw [hev, renderIndices_wrap]
    rfl
  · rw [hout]
    rfl

/-- Witness for C5 with the template `$UNKNOWN` and N = 1. -/
theorem C5_unsupported_placeholder_witness :
    (∃ Y, Y ∉ supportedVars ∧
      (mainRun ⟨"t.json", "tbl", "1", false⟩ "$UNKNOWN" sampleUuid sampleClock
        putAlways).result = .error (.keyError Y)) ∧
    putIndices ((mainRun ⟨"t.json", "tbl", "1", false⟩ "$UNKNOWN" sampleUuid
      sampleClock putAlways).events) = [] :=
  let h := C5_unsupported_placeholder ⟨"t.json", "tbl", "1", false⟩ "$UNKNOWN"
    sampleUuid sampleClock putAlways 1 "UNKNOWN" (by decide) (by decide) (by decide)
    rfl (by decide)
  ⟨h.1, h.2.2.1⟩

/-- C6: if the batch writer raises on the k-th submission (1 ≤ k ≤ N) of an
otherwise valid commit run, the process dies with `ClientError` (exit 1);
exactly the items 1..k were rendered and submitted — none after k — the
earlier submissions stand in the trace unrevoked, and the session close
(flush) still happens last. -/
theorem C6_write_failure_aborts (args : Args) (tmpl : String) (u : Int → String)
    (c : Int → UtcDatetime) (p : Int → Json → Bool) (n k : Int)
    (hc : args.commit = true)
    (hn : pyInt args.number = some n)
    (hk1 : 1 ≤ k) (hkn : k ≤ n)
    (hr : ∀ i ∈ pyRange1 n, (renderItem tmpl u c i).toOption.isSome)
    (hplt : ∀ i j, i < k → p i j = true)
    (hpk : ∀ j, p k j = false) :
    (mainRun args tmpl u c p).result = .error .clientError ∧
    exitStatus (mainRun args tmpl u c p) = 1 ∧
    putIndices (mainRun args tmpl u c p).events = pyRange1 k ∧
    renderIndices (mainRun args tmpl u c p).events = pyRange1 k ∧
    (∀ i ∈ putIndices (mainRun args tmpl u c p).events, i ≤ k) ∧
    (mainRun args tmpl u c p).events.getLast? = some .closeBatch := by
  have hsplit := pyRange1_split hk1 hkn
  have hr1 : ∀ i ∈ pyRange1 (k - 1), (renderItem tmpl u c i).toOption.isSome := by
    intro i hi
    apply hr
    rw [mem_pyRange1] at hi ⊢
    omega
  have hrk : (renderItem tmpl u c k).toOption.isSome := by
    apply hr
    rw [mem_pyRange1]
    omega
  have hp1 : ∀ i ∈ pyRange1 (k - 1), ∀ j, p i j = true := fun i hi j =>
    hplt i j (pyRange1_lt_of_mem_pred hi)
  obtain ⟨hres, hput, hrend, hout⟩ := runItems_commit_fail (msgPrefix true) tmpl u c p k
    ((List.range' (k.toNat + 1) (n.toNat - k.toNat)).map (fun (j : Nat) => (j : Int)))
    (pyRange1 (k - 1)) hr1 hrk hp1 hpk
  have hev := mainRun_events args tmpl u c p n hn
  have hre := mainRun_result args tmpl u c p n hn
  rw [hc, hsplit] at hev hre
  have hconc := pyRange1_concat hk1
  refine ⟨?_, ?_, ?_, ?_, ?_, ?_⟩
  · rw [hre, hres]
  · unfold exitStatus
    rw [hre, hres]
  · rw [hev, putIndices_wrap, hput, hconc]
  · rw [hev, renderIndices_wrap, hrend, hconc]
  · intro i hi
    rw [hev, putIndices_wrap, hput, hconc] at hi
    exact (mem_pyRange1.mp hi).2
  · rw [hev, ← List.cons_append, List.getLast?_concat]

/-- Witness for C6: failure at the 500th submission of a 600-item commit
run. -/
theorem C6_write_failure_aborts_witness :
    (mainRun ⟨"t.json", "tbl", "600", commitFlagOfArg (some "true")⟩ "1" sampleUuid
      sampleClock (putFailsAt 500)).result = .error .clientError ∧
    putIndices ((mainRun ⟨"t.json", "tbl", "600", commitFlagOfArg (some "true")⟩ "1"
      sampleUuid sampleClock (putFailsAt 500)).events) = pyRange1 500 :=
  let h := C6_write_failure_aborts ⟨"t.json", "tbl", "600", commitFlagOfArg (some "true")⟩
    "1" sampleUuid sampleClock (putFailsAt 500) 600 500 rfl rfl (by decide) (by decide)
    (fun i _ => rfl) (fun i j hij => decide_eq_true (by omega)) (fun j => rfl)
  ⟨h.1, h.2.2.1⟩

/-- C9: argparse's `type=bool` turns every non-empty `--commit` value —
including "false", "0" and "no" — into `True`, so such runs perform real
writes; dry run happens exactly when the flag is absent or its value is the
empty string. -/
theorem C9_commit_flag_bool (s : String) (hs : s ≠ "") (a₁ a₂ : Args) (tmpl : String)
    (u : Int → String) (c : Int → UtcDatetime) (p : Int → Json → Bool) (n : Int)
    (h₁ : a₁.commit = commitFlagOfArg (some s))
    (h₂ : a₂.commit = commitFlagOfArg none)
    (hn₁ : pyInt a₁.number = some n) (hn₂ : pyInt a₂.number = some n)
    (hpos : 1 ≤ n)
    (hr : ∀ i ∈ pyRange1 n, (renderItem tmpl u c i).toOption.isSome)
    (hp : ∀ i ∈ pyRange1 n, ∀ j, p i j = true) :
    commitFlagOfArg (some s) = true ∧
    commitFlagOfArg none = false ∧
    commitFlagOfArg (some "") = false ∧
    commitFlagOfArg (some "false") = true ∧
    commitFlagOfArg (some "0") = true ∧
    commitFlagOfArg (some "no") = true ∧
    putIndices (mainRun a₁ tmpl u c p).events = pyRange1 n ∧
    pyRange1 n ≠ [] ∧
    putIndices (mainRun a₂ tmpl u c p).events = [] := by
  have hflag : commitFlagOfArg (some s) = true := by
    show (if s = "" then false else true) = true
    rw [if_neg hs]
  have hc₁ : a₁.commit = true := by rw [h₁, hflag]
  have hc₂ : a₂.commit = false := h₂
  obtain ⟨_, hput, _, _⟩ := runItems_commit_ok (msgPrefix true) tmpl u c p (pyRange1 n) hr hp
  obtain ⟨_, hevs, _, _⟩ := runItems_dry (msgPrefix false) tmpl u c p (pyRange1 n) hr
  have hev₁ := mainRun_events a₁ tmpl u c p n hn₁
  have hev₂ := mainRun_events a₂ tmpl u c p n hn₂
  rw [hc₁] at hev₁
  rw [hc₂] at hev₂
  refine ⟨hflag, rfl, rfl, rfl, rfl, rfl, ?_, ?_, ?_⟩
  · rw [hev₁, putIndices_wrap, hput]
  · have hlen := length_pyRange1 n
    intro hnil
    rw [hnil] at hlen
    simp at hlen
    omega
  · rw [hev₂, putIndices_wrap, hevs, putIndices_renders]

/-- Witness for C9 with `--commit=false` versus flag absent, N = 1. -/
theorem C9_commit_flag_bool_witness :
    commitFlagOfArg (some "false") = true ∧
    putIndices ((mainRun ⟨"t.json", "tbl", "1", commitFlagOfArg (some "false")⟩ "1"
      sampleUuid sampleClock putAlways).events) = pyRange1 1 ∧
    putIndices ((mainRun ⟨"t.json", "tbl", "1", commitFlagOfArg none⟩ "1"
      sampleUuid sampleClock putAlways).events) = [] :=
  let h := C9_commit_flag_bool "false" (by decide)
    ⟨"t.json", "tbl", "1", commitFlagOfArg (some "false")⟩
    ⟨"t.json", "tbl", "1", commitFlagOfArg none⟩ "1" sampleUuid sampleClock putAlways 1
    rfl rfl rfl rfl (by decide) (fun i _ => rfl) (fun i _ j => rfl)
  ⟨h.1, h.2.2.2.2.2.2.1, h.2.2.2.2.2.2.2.2⟩
